import Mathlib

/-!
Shallow embedding of `src/borehole_processor.py` (class `BoreholeProcessor`)
from the borehole-velta repository, together with theorems settling the
frozen claims about it.

Modelling conventions:
* Python floats are modelled as exact rationals `ℚ`; every numeric literal
  in the claims is exactly representable, and all comparisons performed by
  the code (`==`, `<`, `<=`) are modelled by the corresponding exact
  comparisons.
* Positions (`position`, `center`) are lists of coordinates, because the
  code indexes them positionally and branches on their length
  (`position[2] if len(position) > 2 else 0.0`).
* `re.search` over the five patterns of `borehole_patterns` is modelled by
  explicit left-to-right scanning matchers.  In every pattern the character
  classes of adjacent atoms are pairwise disjoint (`[а-я]`, `\.`, `\s`,
  `\d`, `скв` start with characters from disjoint sets), hence greedy
  maximal-munch without backtracking coincides with Python's backtracking
  semantics, and leftmost search is modelled by trying each start position
  in order.
* `random.choice(self.boreholes)` is modelled by an explicit extra argument
  `rand : Nat` choosing index `rand % len`; a run of the Python program
  corresponds to some value of `rand` drawn from the RNG state.
* The dataclass `Borehole` compares by value (`__eq__` generated from all
  fields); the embedding derives `DecidableEq` accordingly.
* `self.reference_borehole` is an alias of one list element; it is modelled
  by the index of that element (`reference : Option Nat`), which is faithful
  for every state reachable through the API calls exercised by the claims
  (extraction, then selection, then height computation).
-/

/-- Python `str.lower` restricted to the alphabets this program can meet:
ASCII letters and Cyrillic А-Я / Ё. -/
def lowerChar (c : Char) : Char :=
  if 0x41 ≤ c.toNat ∧ c.toNat ≤ 0x5A then Char.ofNat (c.toNat + 0x20)
  else if 0x410 ≤ c.toNat ∧ c.toNat ≤ 0x42F then Char.ofNat (c.toNat + 0x20)
  else if c.toNat = 0x401 then Char.ofNat 0x451
  else c

/-- Class `\d` (ASCII decimal digit). -/
def isDigitC (c : Char) : Bool := '0' ≤ c ∧ c ≤ '9'

/-- Class `\s` (ASCII whitespace as matched by Python `\s`). -/
def isSpaceC (c : Char) : Bool :=
  c = ' ' ∨ c = '\t' ∨ c = '\n' ∨ c = '\x0d' ∨ c = '\x0b' ∨ c = '\x0c'

/-- The character class `[а-я]` (Cyrillic lowercase block U+0430–U+044F). -/
def isCyr (c : Char) : Bool := 0x430 ≤ c.toNat ∧ c.toNat ≤ 0x44F

/-- Match a literal character sequence, returning the rest of the input. -/
def lit : List Char → List Char → Option (List Char)
  | [], cs => some cs
  | _, [] => none
  | p :: ps, c :: cs => if c = p then lit ps cs else none

/-- The literal `скв` common to patterns 1, 3 and 4. -/
def skvLit : List Char := ['с', 'к', 'в']

/-- Pattern 1, `скв[а-я]*\.?\s*(\d+)`, attempted at the head of the input;
returns the captured digit run. -/
def pattern1At (cs : List Char) : Option (List Char) :=
  match lit skvLit cs with
  | none => none
  | some r1 =>
    let r2 := r1.dropWhile isCyr
    let r3 := match r2 with
      | '.' :: t => t
      | _ => r2
    let r4 := r3.dropWhile isSpaceC
    let ds := r4.takeWhile isDigitC
    if ds = [] then none else some ds

/-- Pattern 2, `№\s*(\d+)`, attempted at the head of the input. -/
def pattern2At (cs : List Char) : Option (List Char) :=
  match lit ['№'] cs with
  | none => none
  | some r1 =>
    let r2 := r1.dropWhile isSpaceC
    let ds := r2.takeWhile isDigitC
    if ds = [] then none else some ds

/-- Pattern 3, `(\d+)\s*скв`, attempted at the head of the input. -/
def pattern3At (cs : List Char) : Option (List Char) :=
  let ds := cs.takeWhile isDigitC
  if ds = [] then none
  else
    let r1 := (cs.drop ds.length).dropWhile isSpaceC
    match lit skvLit r1 with
    | none => none
    | some _ => some ds

/-- Pattern 4, `скв\s*(\d+)`, attempted at the head of the input. -/
def pattern4At (cs : List Char) : Option (List Char) :=
  match lit skvLit cs with
  | none => none
  | some r1 =>
    let r2 := r1.dropWhile isSpaceC
    let ds := r2.takeWhile isDigitC
    if ds = [] then none else some ds

/-- Pattern 5, `^(\d+)$`: anchored at the start; `$` matches at the end of
the string or just before a single trailing newline (Python semantics
without `re.MULTILINE`). -/
def pattern5 (cs : List Char) : Option (List Char) :=
  let ds := cs.takeWhile isDigitC
  if ds = [] then none
  else
    match cs.drop ds.length with
    | [] => some ds
    | ['\n'] => some ds
    | _ => none

/-- Model of `re.search`: try the head matcher at every start position, leftmost
first. -/
def searchPat (f : List Char → Option (List Char)) : List Char → Option (List Char)
  | [] => f []
  | c :: cs =>
    match f (c :: cs) with
    | some r => some r
    | none => searchPat f cs

/-- Lowercased character list of a string (`text.lower()`). -/
def lowerStr (s : String) : List Char := s.data.map lowerChar

/-- Method `BoreholeProcessor._extract_borehole_number`: try the five patterns of
`self.borehole_patterns` in order against the lowercased text, returning
the first capturing group that matches, else `None`. -/
def extract_borehole_number (s : String) : Option String :=
  let t := lowerStr s
  match searchPat pattern1At t with
  | some ds => some ⟨ds⟩
  | none =>
  match searchPat pattern2At t with
  | some ds => some ⟨ds⟩
  | none =>
  match searchPat pattern3At t with
  | some ds => some ⟨ds⟩
  | none =>
  match searchPat pattern4At t with
  | some ds => some ⟨ds⟩
  | none =>
  match pattern5 t with
  | some ds => some ⟨ds⟩
  | none => none

/-- Python `str.strip()` (used on text entities before extraction). -/
def stripPy (s : String) : String :=
  ⟨((s.data.dropWhile isSpaceC).reverse.dropWhile isSpaceC).reverse⟩

/-! ## Entities and geometry -/

/-- A text entity record handed over by the CAD-access layer
(`{'text': ..., 'position': ...}`). -/
structure TextEnt where
  text : String
  position : List ℚ
deriving DecidableEq, Repr

/-- A circle entity record (`{'center': ..., 'radius': ...}`).  Python
compares these dictionaries by value, matching the derived equality. -/
structure CircleEnt where
  center : List ℚ
  radius : ℚ
deriving DecidableEq, Repr

/-- An attributed block-insertion record
(`{'position': ..., 'attributes': {...}}`); the attribute dict is a list
of tag/value pairs in insertion order (`dict.items()` order). -/
structure BlockEnt where
  position : List ℚ
  attributes : List (String × String)
deriving DecidableEq, Repr

/-- Indexing `p[i]` on a coordinate tuple. -/
def coord (p : List ℚ) (i : Nat) : ℚ := p.getD i 0

/-- Lookup `p[2] if len(p) > 2 else dflt`. -/
def zCoord (p : List ℚ) (dflt : ℚ) : ℚ :=
  if 2 < p.length then coord p 2 else dflt

/-- Squared Euclidean XY distance; the code computes
`((x1-x2)**2 + (y1-y2)**2) ** 0.5` and only ever compares it, so working
with squares is faithful (square root is monotone). -/
def distSq (p q : List ℚ) : ℚ :=
  (coord p 0 - coord q 0) ^ 2 + (coord p 1 - coord q 1) ^ 2

/-- Predicate `sqrt (distSq p q) ≤ maxD`, expressed without square roots. -/
def withinThr (p : List ℚ) (maxD : ℚ) (q : List ℚ) : Prop :=
  0 ≤ maxD ∧ distSq p q ≤ maxD ^ 2

instance (p : List ℚ) (maxD : ℚ) (q : List ℚ) : Decidable (withinThr p maxD q) := by
  unfold withinThr; infer_instance

/-- One iteration of the linear scan shared by `_find_closest_circle` and
`_find_nearby_text`: replace the tracked minimum when
`distance < min_distance and distance <= max_distance` (initial
`min_distance` is `inf`, modelled by the `none` accumulator). -/
def nearestStep (q : List ℚ) (maxD : ℚ) (ctr : α → List ℚ)
    (acc : Option (α × ℚ)) (c : α) : Option (α × ℚ) :=
  let d := distSq q (ctr c)
  match acc with
  | none => if withinThr q maxD (ctr c) then some (c, d) else none
  | some (b, m) => if d < m ∧ withinThr q maxD (ctr c) then some (c, d) else some (b, m)

/-- Method `BoreholeProcessor._find_closest_circle` (default `max_distance` 50.0). -/
def find_closest_circle (pos : List ℚ) (circles : List CircleEnt)
    (maxD : ℚ) : Option CircleEnt :=
  (circles.foldl (nearestStep pos maxD CircleEnt.center) none).map Prod.fst

/-- Method `BoreholeProcessor._find_nearby_text` (default `max_distance` 50.0). -/
def find_nearby_text (center : List ℚ) (texts : List TextEnt)
    (maxD : ℚ) : Option TextEnt :=
  (texts.foldl (nearestStep center maxD TextEnt.position) none).map Prod.fst

/-! ## The `Borehole` dataclass and the processor state -/

/-- The `Borehole` dataclass; generated `__eq__` compares all fields,
matching the derived equality. -/
structure Borehole where
  number : String
  x : ℚ
  y : ℚ
  z : Option ℚ := none
  relative_height : Option ℚ := none
  text_entity : Option TextEnt := none
  circle_entity : Option CircleEnt := none
deriving DecidableEq, Repr

/-- State of a `BoreholeProcessor`: the registry list and the reference
alias, modelled by the index of the aliased element. -/
structure BoreholeProcessor where
  boreholes : List Borehole := []
  reference : Option Nat := none
deriving DecidableEq, Repr

/-- Attribute scan of `extract_borehole_from_blocks`: first attribute value
that is truthy (non-empty) and yields an extracted number.  The capture
group `(\d+)` is never empty, so `if value and self._extract_borehole_number(value)`
reduces to non-emptiness of the value plus success of the extraction. -/
def attrNumber : List (String × String) → Option String
  | [] => none
  | (_, v) :: rest =>
    if v ≠ "" then
      match extract_borehole_number v with
      | some n => some n
      | none => attrNumber rest
    else attrNumber rest

/-- Method `BoreholeProcessor.extract_borehole_from_blocks`: one borehole per
block, identifier from the attributes or the 1-based positional fallback
`str(idx + 1)`. -/
def extract_borehole_from_blocks (blocks : List BlockEnt) : List Borehole :=
  blocks.enum.map fun ib =>
    { number := (attrNumber ib.2.attributes).getD (toString (ib.1 + 1))
      x := coord ib.2.position 0
      y := coord ib.2.position 1
      z := some (zCoord ib.2.position 0) }

/-- Borehole built in the text-driven pass of `extract_borehole_numbers`:
position from the text, overridden by the closest circle when one is found
within 50.0 units. -/
def mkTextBorehole (t : TextEnt) (circles : List CircleEnt) (n : String) : Borehole :=
  match find_closest_circle t.position circles 50 with
  | none =>
    { number := n, x := coord t.position 0, y := coord t.position 1
      z := some (zCoord t.position 0), text_entity := some t, circle_entity := none }
  | some c =>
    { number := n, x := coord c.center 0, y := coord c.center 1
      z := some (zCoord c.center (zCoord t.position 0))
      text_entity := some t, circle_entity := some c }

/-- First pass of `extract_borehole_numbers` (loop over text entities). -/
def textPass (texts : List TextEnt) (circles : List CircleEnt) : List Borehole :=
  texts.foldl (fun acc t =>
    match extract_borehole_number (stripPy t.text) with
    | some n => acc ++ [mkTextBorehole t circles n]
    | none => acc) []

/-- One iteration of the second pass of `extract_borehole_numbers` (loop
over circles): skip a circle already associated to some borehole, else try
to pair it with nearby text. -/
def circlePassStep (texts : List TextEnt) (acc : List Borehole)
    (c : CircleEnt) : List Borehole :=
  if acc.any (fun bh => bh.circle_entity = some c) then acc
  else
    match find_nearby_text c.center texts 50 with
    | none => acc
    | some t =>
      match extract_borehole_number t.text with
      | none => acc
      | some n =>
        acc ++ [{ number := n, x := coord c.center 0, y := coord c.center 1
                  z := some (zCoord c.center 0)
                  circle_entity := some c, text_entity := some t }]

/-- Method `BoreholeProcessor.extract_borehole_numbers`: the text-driven pass
followed by the circle-driven pass. -/
def extract_borehole_numbers (texts : List TextEnt)
    (circles : List CircleEnt) : List Borehole :=
  circles.foldl (circlePassStep texts) (textPass texts circles)

/-! ## Reference selection, height computation, export -/

/-- Index of the first borehole whose `number` equals `s` (the linear scan
of `set_reference_borehole`). -/
def findNumberIdx : List Borehole → String → Option Nat
  | [], _ => none
  | b :: bs, s =>
    if b.number = s then some 0 else (findNumberIdx bs s).map (· + 1)

/-- Set `relative_height = 0.0` on the element at index `i` (the mutation
performed through the `reference_borehole` alias). -/
def setRel0 : List Borehole → Nat → List Borehole
  | [], _ => []
  | b :: bs, 0 => { b with relative_height := some 0 } :: bs
  | b :: bs, n + 1 => b :: setRel0 bs n

/-- Record the element at index `i` as the reference and zero its
`relative_height`. -/
def markReference (p : BoreholeProcessor) (i : Nat) : BoreholeProcessor :=
  { boreholes := setRel0 p.boreholes i, reference := some i }

/-- Method `BoreholeProcessor.set_reference_borehole`.  The argument `rand` models the draw of
`random.choice`; note that Python's `if borehole_number:` treats the empty
string like `None`, so an explicit `""` falls into the random branch. -/
def set_reference_borehole (p : BoreholeProcessor) (num : Option String)
    (rand : Nat) : Bool × BoreholeProcessor :=
  if p.boreholes = [] then (false, p)
  else
    match num with
    | some s =>
      if s = "" then (true, markReference p (rand % p.boreholes.length))
      else
        match findNumberIdx p.boreholes s with
        | some i => (true, markReference p i)
        | none => (false, p)
    | none => (true, markReference p (rand % p.boreholes.length))

/-- The update of the reference's elevation at the start of
`calculate_relative_heights`: keep the drawing value unless it is absent
or exactly the `0.0` default, in which case the override `rz` is used. -/
def applyOverride (b : Borehole) (rz : ℚ) : Borehole :=
  if b.z = none ∨ b.z = some 0 then { b with z := some rz } else b

/-- The loop body of `calculate_relative_heights` for one borehole: skip
boreholes equal (dataclass `==`) to the reference `r`, default an absent
elevation to `0.0`, then set `relative_height = z - r.z`. -/
def updateOther (r : Borehole) (b : Borehole) : Borehole :=
  if b = r then b
  else
    let b1 := if b.z = none then { b with z := some 0 } else b
    { b1 with relative_height := some (b1.z.getD 0 - r.z.getD 0) }

/-- Method `BoreholeProcessor.calculate_relative_heights`.  The
`p.boreholes[i]? = none` branch (a reference alias detached from the
current list) is unreachable through the API sequences modelled here. -/
def calculate_relative_heights (p : BoreholeProcessor) (rz : ℚ) :
    Bool × BoreholeProcessor :=
  match p.reference with
  | none => (false, p)
  | some i =>
    match p.boreholes[i]? with
    | none => (true, p)
    | some r0 =>
      let r1 := applyOverride r0 rz
      (true, { boreholes := (p.boreholes.set i r1).map (updateOther r1)
               reference := some i })

/-- One row of `get_boreholes_data`. -/
structure BoreholeRow where
  number : String
  x : ℚ
  y : ℚ
  z : Option ℚ
  relative_height : Option ℚ
  is_reference : Bool
deriving DecidableEq, Repr

/-- One export row of `get_boreholes_data`: `is_reference` is computed by
dataclass value equality `borehole == self.reference_borehole` (false when
no reference is set, since `borehole == None` is false). -/
def rowOf (r : Option Borehole) (b : Borehole) : BoreholeRow :=
  { number := b.number, x := b.x, y := b.y, z := b.z
    relative_height := b.relative_height
    is_reference := match r with
      | some rb => decide (b = rb)
      | none => false }

/-- Method `BoreholeProcessor.get_boreholes_data`. -/
def get_boreholes_data (p : BoreholeProcessor) : List BoreholeRow :=
  p.boreholes.map (rowOf (p.reference.bind fun i => p.boreholes[i]?))

/-! ## Specification of the nearest-candidate scan -/

/-- Invariant of the linear scan: the accumulator is `none` exactly when no
processed candidate is within the threshold, and otherwise holds the first
processed candidate attaining the minimal distance among those within the
threshold. -/
def NearAcc {α : Type} (q : List ℚ) (maxD : ℚ) (ctr : α → List ℚ)
    (processed : List α) : Option (α × ℚ) → Prop
  | none => ∀ c ∈ processed, ¬ withinThr q maxD (ctr c)
  | some (b, m) =>
      m = distSq q (ctr b) ∧ withinThr q maxD (ctr b) ∧
      ∃ l1 l2, processed = l1 ++ b :: l2 ∧
        (∀ c ∈ l1, withinThr q maxD (ctr c) → m < distSq q (ctr c)) ∧
        (∀ c ∈ l2, withinThr q maxD (ctr c) → m ≤ distSq q (ctr c))

lemma nearAcc_step {α : Type} (q : List ℚ) (maxD : ℚ) (ctr : α → List ℚ)
    (processed : List α) (acc : Option (α × ℚ)) (c : α)
    (h : NearAcc q maxD ctr processed acc) :
    NearAcc q maxD ctr (processed ++ [c]) (nearestStep q maxD ctr acc c) := by
  match acc with
  | none =>
    simp only [nearestStep]
    by_cases hw : withinThr q maxD (ctr c)
    · simp only [hw, if_pos]
      refine ⟨rfl, hw, processed, [], by simp, ?_, by simp⟩
      intro x hx hwx
      exact absurd hwx (h x hx)
    · simp only [hw, if_neg, not_false_iff]
      intro x hx
      rcases List.mem_append.mp hx with hx | hx
      · exact h x hx
      · rcases List.mem_singleton.mp hx with rfl
        exact hw
  | some (b, m) =>
    obtain ⟨hm, hwb, l1, l2, hdec, h1, h2⟩ := h
    simp only [nearestStep]
    by_cases hrepl : distSq q (ctr c) < m ∧ withinThr q maxD (ctr c)
    · simp only [hrepl, if_pos]
      refine ⟨rfl, hrepl.2, processed, [], by simp, ?_, by simp⟩
      intro x hx hwx
      rw [hdec] at hx
      rcases List.mem_append.mp hx with hx | hx
      · exact lt_trans hrepl.1 (h1 x hx hwx)
      · rcases List.mem_cons.mp hx with rfl | hx
        · exact hm ▸ hrepl.1
        · exact lt_of_lt_of_le hrepl.1 (h2 x hx hwx)
    · simp only [hrepl, if_neg, not_false_iff]
      refine ⟨hm, hwb, l1, l2 ++ [c], by rw [hdec]; simp, h1, ?_⟩
      intro x hx hwx
      rcases List.mem_append.mp hx with hx | hx
      · exact h2 x hx hwx
      · rcases List.mem_singleton.mp hx with rfl
        rcases not_and_or.mp hrepl with hlt | hno
        · exact le_of_not_lt hlt
        · exact absurd hwx hno

lemma nearAcc_fold {α : Type} (q : List ℚ) (maxD : ℚ) (ctr : α → List ℚ) :
    ∀ (l processed : List α) (acc : Option (α × ℚ)),
      NearAcc q maxD ctr processed acc →
      NearAcc q maxD ctr (processed ++ l) (l.foldl (nearestStep q maxD ctr) acc)
  | [], processed, acc, h => by simpa using h
  | c :: l, processed, acc, h => by
    have h' := nearAcc_step q maxD ctr processed acc c h
    have := nearAcc_fold q maxD ctr l (processed ++ [c]) (nearestStep q maxD ctr acc c) h'
    simpa using this

/-- Full functional specification of the scan shared by
`_find_closest_circle` and `_find_nearby_text`. -/
lemma nearestFold_spec {α : Type} (q : List ℚ) (maxD : ℚ) (ctr : α → List ℚ)
    (l : List α) :
    ((l.foldl (nearestStep q maxD ctr) none).map Prod.fst = none ↔
      ∀ c ∈ l, ¬ withinThr q maxD (ctr c)) ∧
    (∀ c, (l.foldl (nearestStep q maxD ctr) none).map Prod.fst = some c →
      withinThr q maxD (ctr c) ∧
      (∀ c' ∈ l, withinThr q maxD (ctr c') →
        distSq q (ctr c) ≤ distSq q (ctr c')) ∧
      ∃ l1 l2, l = l1 ++ c :: l2 ∧
        ∀ c' ∈ l1, withinThr q maxD (ctr c') →
          distSq q (ctr c) < distSq q (ctr c')) := by
  have hbase : NearAcc q maxD ctr [] (none : Option (α × ℚ)) := by
    intro x hx
    simp at hx
  have hfin := nearAcc_fold q maxD ctr l [] none hbase
  simp only [List.nil_append] at hfin
  rcases hres : l.foldl (nearestStep q maxD ctr) none with _ | ⟨b, m⟩
  · rw [hres] at hfin
    constructor
    · exact ⟨fun _ => hfin, fun _ => rfl⟩
    · intro c hc
      simp at hc
  · rw [hres] at hfin
    obtain ⟨hm, hwb, l1, l2, hdec, h1, h2⟩ := hfin
    constructor
    · constructor
      · intro h
        exact absurd h (by simp)
      · intro hall
        have hb : b ∈ l := by rw [hdec]; exact List.mem_append_right _ (List.mem_cons_self _ _)
        exact absurd hwb (hall b hb)
    · intro c hc
      simp only [Option.map_some', Option.some.injEq] at hc
      subst hc
      refine ⟨hwb, ?_, l1, l2, hdec, fun x hx hwx => hm ▸ h1 x hx hwx⟩
      intro x hx hwx
      rw [hdec] at hx
      rcases List.mem_append.mp hx with hx | hx
      · exact le_of_lt (hm ▸ h1 x hx hwx)
      · rcases List.mem_cons.mp hx with rfl | hx
        · exact le_refl _
        · exact hm ▸ h2 x hx hwx

/-- C3: for every query position, finite candidate collection and
threshold, `_find_closest_circle` returns `None` exactly when no candidate
is within the threshold (in particular on an empty collection), and
otherwise returns a candidate of minimal Euclidean XY distance among
those within the threshold, ties broken in favour of the first candidate
in iteration order (every earlier within-threshold candidate is strictly
farther); `_find_nearby_text` satisfies the same specification.
`withinThr pos maxD c` encodes `sqrt (distSq pos c) ≤ maxD` without square
roots; the call sites use the default threshold `50.0`. -/
theorem C3_nearest_candidate :
    ∀ (pos : List ℚ) (maxD : ℚ),
      (∀ (circles : List CircleEnt),
        (find_closest_circle pos circles maxD = none ↔
          ∀ c ∈ circles, ¬ withinThr pos maxD c.center) ∧
        (∀ c, find_closest_circle pos circles maxD = some c →
          withinThr pos maxD c.center ∧
          (∀ c' ∈ circles, withinThr pos maxD c'.center →
            distSq pos c.center ≤ distSq pos c'.center) ∧
          ∃ l1 l2, circles = l1 ++ c :: l2 ∧
            ∀ c' ∈ l1, withinThr pos maxD c'.center →
              distSq pos c.center < distSq pos c'.center)) ∧
      (∀ (texts : List TextEnt),
        (find_nearby_text pos texts maxD = none ↔
          ∀ t ∈ texts, ¬ withinThr pos maxD t.position) ∧
        (∀ t, find_nearby_text pos texts maxD = some t →
          withinThr pos maxD t.position ∧
          (∀ t' ∈ texts, withinThr pos maxD t'.position →
            distSq pos t.position ≤ distSq pos t'.position) ∧
          ∃ l1 l2, texts = l1 ++ t :: l2 ∧
            ∀ t' ∈ l1, withinThr pos maxD t'.position →
              distSq pos t.position < distSq pos t'.position)) := by
  intro pos maxD
  constructor
  · intro circles
    exact nearestFold_spec pos maxD CircleEnt.center circles
  · intro texts
    exact nearestFold_spec pos maxD TextEnt.position texts

/-- Witness for C3 at a concrete input: with query `(0,0)` and candidates
`(3,4)` and `(0,1)` under threshold `50`, the circle at `(0,1)` is
returned and is within the threshold and no farther than the other. -/
theorem C3_nearest_candidate_witness :
    find_closest_circle [0, 0] [⟨[3, 4, 0], 1⟩, ⟨[0, 1, 0], 1⟩] 50 =
      some ⟨[0, 1, 0], 1⟩ ∧
    withinThr [0, 0] 50 [0, 1, 0] ∧
    distSq [0, 0] [0, 1, 0] ≤ distSq [0, 0] [3, 4, 0] := by
  have hfind : find_closest_circle [0, 0] [⟨[3, 4, 0], 1⟩, ⟨[0, 1, 0], 1⟩] 50 =
      some ⟨[0, 1, 0], 1⟩ := by
    norm_num +decide [find_closest_circle, nearestStep, withinThr, distSq, coord]
  have h := ((C3_nearest_candidate [0, 0] 50).1
      [⟨[3, 4, 0], 1⟩, ⟨[0, 1, 0], 1⟩]).2 ⟨[0, 1, 0], 1⟩ hfind
  refine ⟨hfind, h.1, h.2.1 ⟨[3, 4, 0], 1⟩ (by norm_num) ?_⟩
  norm_num [withinThr, distSq, coord]

/-! ## C2: identifier extraction -/

/-- C2: `_extract_borehole_number` tries the five pattern rules against the
case-folded input in the exact priority order of `borehole_patterns` and
returns the capturing group of the first rule that matches; each supported
label format yields the expected digit string, text matching no rule
yields `None`, and being a total function of the input string it never
throws and has no side effects. -/
theorem C2_identifier_extraction :
    extract_borehole_number "скв. 12" = some "12" ∧
    extract_borehole_number "скважина 7" = some "7" ∧
    extract_borehole_number "№ 5" = some "5" ∧
    extract_borehole_number "12 скв" = some "12" ∧
    extract_borehole_number "скв 9" = some "9" ∧
    extract_borehole_number "42" = some "42" ∧
    extract_borehole_number "глубина абв" = none ∧
    (∀ s ds, searchPat pattern1At (lowerStr s) = some ds →
      extract_borehole_number s = some ⟨ds⟩) ∧
    (∀ s ds, searchPat pattern1At (lowerStr s) = none →
      searchPat pattern2At (lowerStr s) = some ds →
      extract_borehole_number s = some ⟨ds⟩) ∧
    (∀ s ds, searchPat pattern1At (lowerStr s) = none →
      searchPat pattern2At (lowerStr s) = none →
      searchPat pattern3At (lowerStr s) = some ds →
      extract_borehole_number s = some ⟨ds⟩) ∧
    (∀ s ds, searchPat pattern1At (lowerStr s) = none →
      searchPat pattern2At (lowerStr s) = none →
      searchPat pattern3At (lowerStr s) = none →
      searchPat pattern4At (lowerStr s) = some ds →
      extract_borehole_number s = some ⟨ds⟩) ∧
    (∀ s ds, searchPat pattern1At (lowerStr s) = none →
      searchPat pattern2At (lowerStr s) = none →
      searchPat pattern3At (lowerStr s) = none →
      searchPat pattern4At (lowerStr s) = none →
      pattern5 (lowerStr s) = some ds →
      extract_borehole_number s = some ⟨ds⟩) ∧
    (∀ s, searchPat pattern1At (lowerStr s) = none →
      searchPat pattern2At (lowerStr s) = none →
      searchPat pattern3At (lowerStr s) = none →
      searchPat pattern4At (lowerStr s) = none →
      pattern5 (lowerStr s) = none →
      extract_borehole_number s = none) := by
  refine ⟨by decide, by decide, by decide, by decide, by decide, by decide, by decide,
    ?_, ?_, ?_, ?_, ?_, ?_⟩
  · intro s ds h1
    simp only [extract_borehole_number, h1]
  · intro s ds h1 h2
    simp only [extract_borehole_number, h1, h2]
  · intro s ds h1 h2 h3
    simp only [extract_borehole_number, h1, h2, h3]
  · intro s ds h1 h2 h3 h4
    simp only [extract_borehole_number, h1, h2, h3, h4]
  · intro s ds h1 h2 h3 h4 h5
    simp only [extract_borehole_number, h1, h2, h3, h4, h5]
  · intro s h1 h2 h3 h4 h5
    simp only [extract_borehole_number, h1, h2, h3, h4, h5]

/-- Witness for C2 at a concrete input: rule 2 fires on `"№ 33"` because
rule 1 fails there. -/
theorem C2_identifier_extraction_witness :
    extract_borehole_number "№ 33" = some "33" :=
  C2_identifier_extraction.2.2.2.2.2.2.2.2.1 "№ 33" ['3', '3']
    (by decide) (by decide)

/-! ## C1: height computation -/

/-- The update `applyOverride` always leaves a present elevation. -/
lemma applyOverride_z_some (b : Borehole) (rz : ℚ) :
    (applyOverride b rz).z = some ((applyOverride b rz).z.getD 0) := by
  unfold applyOverride
  by_cases h : b.z = none ∨ b.z = some 0
  · simp [h]
  · simp only [h, if_neg, not_false_iff]
    cases hbz : b.z with
    | none => exact absurd (Or.inl hbz) h
    | some v => simp [hbz]

/-- C1: with a reference selected (whose `relative_height` the selection
set to `0`), `calculate_relative_heights` with override `rz` sets the
reference's elevation to the override exactly when its own elevation is
absent or exactly `0.0` and keeps it otherwise, leaves the reference's
`relative_height` at `0`, and gives every other borehole the elevation
default `0.0` when absent and `relative_height = elevation − reference
elevation`; on the registry built from the three stated insertions,
selecting reference "1" and computing with override `100.0` yields
relative heights `0`, `−95`, `−103`. -/
theorem C1_height_computation :
    (∀ (p : BoreholeProcessor) (rz : ℚ) (i : Nat) (r0 : Borehole),
      p.reference = some i →
      p.boreholes[i]? = some r0 →
      r0.relative_height = some 0 →
      (calculate_relative_heights p rz).1 = true ∧
      (calculate_relative_heights p rz).2.boreholes[i]? = some (applyOverride r0 rz) ∧
      (applyOverride r0 rz).z =
        (if r0.z = none ∨ r0.z = some 0 then some rz else r0.z) ∧
      (applyOverride r0 rz).relative_height = some 0 ∧
      (∀ j b0, j ≠ i → p.boreholes[j]? = some b0 →
        ∃ b1, (calculate_relative_heights p rz).2.boreholes[j]? = some b1 ∧
          b1.z = some (b0.z.getD 0) ∧
          b1.relative_height =
            some (b0.z.getD 0 - (applyOverride r0 rz).z.getD 0))) ∧
    ((set_reference_borehole
        ⟨extract_borehole_from_blocks
          [⟨[0, 0, 0], [("NOMER", "1")]⟩, ⟨[10, 0, 5], [("NOMER", "2")]⟩,
           ⟨[20, 0, -3], [("NOMER", "3")]⟩], none⟩
        (some "1") 0).1 = true ∧
      (calculate_relative_heights
        (set_reference_borehole
          ⟨extract_borehole_from_blocks
            [⟨[0, 0, 0], [("NOMER", "1")]⟩, ⟨[10, 0, 5], [("NOMER", "2")]⟩,
             ⟨[20, 0, -3], [("NOMER", "3")]⟩], none⟩
          (some "1") 0).2 100).1 = true ∧
      ((calculate_relative_heights
        (set_reference_borehole
          ⟨extract_borehole_from_blocks
            [⟨[0, 0, 0], [("NOMER", "1")]⟩, ⟨[10, 0, 5], [("NOMER", "2")]⟩,
             ⟨[20, 0, -3], [("NOMER", "3")]⟩], none⟩
          (some "1") 0).2 100).2.boreholes.map
        (fun b => (b.number, b.z, b.relative_height)) =
      [("1", some 100, some 0), ("2", some 5, some (-95)),
       ("3", some (-3), some (-103))])) := by
  constructor
  · intro p rz i r0 href hget hrel
    have hstate : calculate_relative_heights p rz =
        (true, { boreholes := (p.boreholes.set i (applyOverride r0 rz)).map
                   (updateOther (applyOverride r0 rz)),
                 reference := some i }) := by
      unfold calculate_relative_heights
      rw [href]
      dsimp only
      rw [hget]
    have hi : i < p.boreholes.length := by
      by_contra hlt
      rw [List.getElem?_eq_none (le_of_not_lt hlt)] at hget
      exact Option.noConfusion hget
    refine ⟨by rw [hstate], ?_, ?_, ?_, ?_⟩
    · rw [hstate]
      simp only [List.getElem?_map, List.getElem?_set_self hi, Option.map_some']
      have : updateOther (applyOverride r0 rz) (applyOverride r0 rz) =
          applyOverride r0 rz := by
        unfold updateOther
        simp
      rw [this]
    · unfold applyOverride
      by_cases h : r0.z = none ∨ r0.z = some 0
      · simp [h]
      · simp [h]
    · unfold applyOverride
      by_cases h : r0.z = none ∨ r0.z = some 0
      · simp [h, hrel]
      · simp [h, hrel]
    · intro j b0 hji hgetj
      rw [hstate]
      simp only [List.getElem?_map, List.getElem?_set_ne (fun h => hji h.symm), hgetj,
        Option.map_some']
      refine ⟨updateOther (applyOverride r0 rz) b0, rfl, ?_⟩
      by_cases heq : b0 = applyOverride r0 rz
      · have hz := applyOverride_z_some r0 rz
        have hrel1 : (applyOverride r0 rz).relative_height = some 0 := by
          unfold applyOverride
          by_cases h : r0.z = none ∨ r0.z = some 0
          · simp [h, hrel]
          · simp [h, hrel]
        unfold updateOther
        rw [if_pos heq, heq]
        refine ⟨hz, ?_⟩
        rw [hrel1, sub_self]
      · unfold updateOther
        rw [if_neg heq]
        cases hbz : b0.z with
        | none => simp [hbz]
        | some v => simp [hbz]
  · refine ⟨by decide, ?_, ?_⟩ <;>
    · have e1 : extract_borehole_from_blocks
          [⟨[0, 0, 0], [("NOMER", "1")]⟩, ⟨[10, 0, 5], [("NOMER", "2")]⟩,
           ⟨[20, 0, -3], [("NOMER", "3")]⟩] =
          [⟨"1", 0, 0, some 0, none, none, none⟩, ⟨"2", 10, 0, some 5, none, none, none⟩,
           ⟨"3", 20, 0, some (-3), none, none, none⟩] := by decide
      rw [e1]
      have e2 : set_reference_borehole
          ⟨[⟨"1", 0, 0, some 0, none, none, none⟩, ⟨"2", 10, 0, some 5, none, none, none⟩,
            ⟨"3", 20, 0, some (-3), none, none, none⟩], none⟩ (some "1") 0 =
          (true, ⟨[⟨"1", 0, 0, some 0, some 0, none, none⟩,
                   ⟨"2", 10, 0, some 5, none, none, none⟩,
                   ⟨"3", 20, 0, some (-3), none, none, none⟩], some 0⟩) := by decide
      rw [e2]
      norm_num +decide [calculate_relative_heights, applyOverride, updateOther]

/-- Witness for C1 at a concrete state: reference at index 0 with zeroed
relative height; the computation succeeds, overrides the reference
elevation, and assigns the other borehole its offset. -/
theorem C1_height_computation_witness :
    (calculate_relative_heights
      ⟨[⟨"1", 0, 0, some 0, some 0, none, none⟩,
        ⟨"2", 10, 0, some 5, none, none, none⟩], some 0⟩ 100).1 = true ∧
    ((calculate_relative_heights
      ⟨[⟨"1", 0, 0, some 0, some 0, none, none⟩,
        ⟨"2", 10, 0, some 5, none, none, none⟩], some 0⟩ 100).2.boreholes[1]?).map
      Borehole.relative_height =
      some (some (5 - (applyOverride ⟨"1", 0, 0, some 0, some 0, none, none⟩ 100).z.getD 0)) := by
  have h := C1_height_computation.1
    ⟨[⟨"1", 0, 0, some 0, some 0, none, none⟩,
      ⟨"2", 10, 0, some 5, none, none, none⟩], some 0⟩ 100 0
    ⟨"1", 0, 0, some 0, some 0, none, none⟩ rfl (by decide) rfl
  refine ⟨h.1, ?_⟩
  obtain ⟨b1, hb1, hz, hrel⟩ :=
    h.2.2.2.2 1 ⟨"2", 10, 0, some 5, none, none, none⟩ (by decide) (by decide)
  rw [hb1, Option.map_some', hrel]
  rfl

/-! ## C9: idempotence of the height computation -/

/-- The reference-elevation update is idempotent for a fixed override. -/
lemma applyOverride_idem (b : Borehole) (rz : ℚ) :
    applyOverride (applyOverride b rz) rz = applyOverride b rz := by
  by_cases h : b.z = none ∨ b.z = some 0
  · have h1 : applyOverride b rz = { b with z := some rz } := by
      unfold applyOverride
      rw [if_pos h]
    rw [h1]
    unfold applyOverride
    by_cases h2 : rz = 0
    · subst h2
      simp
    · rw [if_neg (by simp [h2])]
  · have h1 : applyOverride b rz = b := by
      unfold applyOverride
      rw [if_neg h]
    rw [h1]
    exact h1

/-- The loop body leaves the reference itself unchanged. -/
lemma updateOther_self (r : Borehole) : updateOther r r = r := by
  unfold updateOther
  simp

/-- Closed form of the loop body on a borehole different from the
reference. -/
lemma updateOther_ne (r b : Borehole) (h : b ≠ r) :
    updateOther r b =
      { b with z := some (b.z.getD 0),
               relative_height := some (b.z.getD 0 - r.z.getD 0) } := by
  unfold updateOther
  rw [if_neg h]
  obtain ⟨n, x, y, z, rel, te, ce⟩ := b
  cases z with
  | none => simp
  | some v => simp

/-- The loop body is idempotent for a fixed reference. -/
lemma updateOther_idem (r b : Borehole) :
    updateOther r (updateOther r b) = updateOther r b := by
  by_cases h : b = r
  · subst h
    rw [updateOther_self]
    exact updateOther_self b
  · have hB := updateOther_ne r b h
    by_cases h2 : updateOther r b = r
    · rw [h2, updateOther_self]
    · rw [updateOther_ne r (updateOther r b) h2, hB]
      obtain ⟨n, x, y, z, rel, te, ce⟩ := b
      simp

/-- Overwriting a list position with the value it already holds is the
identity. -/
lemma set_self_of_getElem? {α : Type} :
    ∀ (l : List α) (i : Nat) (a : α), l[i]? = some a → l.set i a = l
  | [], i, a, h => by simp at h
  | b :: t, 0, a, h => by
    simp only [List.getElem?_cons_zero, Option.some.injEq] at h
    simp [h]
  | b :: t, n + 1, a, h => by
    simp only [List.getElem?_cons_succ] at h
    simp [set_self_of_getElem? t n a h]

/-- The result state of a successful `calculate_relative_heights` run. -/
lemma calc_state (p : BoreholeProcessor) (rz : ℚ) (i : Nat) (r0 : Borehole)
    (href : p.reference = some i) (hget : p.boreholes[i]? = some r0) :
    calculate_relative_heights p rz =
      (true, ⟨(p.boreholes.set i (applyOverride r0 rz)).map
                (updateOther (applyOverride r0 rz)), some i⟩) := by
  unfold calculate_relative_heights
  rw [href]
  dsimp only
  rw [hget]

/-- C9: for every registry state with a selected reference and every fixed
override value, running `calculate_relative_heights` twice in succession
with the same override produces exactly the state (every borehole's
elevation and `relative_height` included) of running it once. -/
theorem C9_height_computation_idempotent :
    ∀ (p : BoreholeProcessor) (rz : ℚ) (i : Nat) (r0 : Borehole),
      p.reference = some i →
      p.boreholes[i]? = some r0 →
      calculate_relative_heights (calculate_relative_heights p rz).2 rz =
        calculate_relative_heights p rz := by
  intro p rz i r0 href hget
  have hi : i < p.boreholes.length := by
    by_contra hlt
    rw [List.getElem?_eq_none (le_of_not_lt hlt)] at hget
    exact Option.noConfusion hget
  have h1 := calc_state p rz i r0 href hget
  set r1 := applyOverride r0 rz with hr1
  set bs2 := (p.boreholes.set i r1).map (updateOther r1) with hbs2
  have hget2 : bs2[i]? = some r1 := by
    rw [hbs2, List.getElem?_map, List.getElem?_set_self hi, Option.map_some',
      updateOther_self]
  have h2 := calc_state ⟨bs2, some i⟩ rz i r1 rfl hget2
  rw [h1]
  dsimp only
  rw [h2]
  have hfix : applyOverride r1 rz = r1 := applyOverride_idem r0 rz
  rw [hfix]
  have hset : bs2.set i r1 = bs2 := set_self_of_getElem? bs2 i r1 hget2
  rw [hset]
  have hmap : bs2.map (updateOther r1) = bs2 := by
    rw [hbs2, List.map_map]
    have : updateOther r1 ∘ updateOther r1 = updateOther r1 :=
      funext (updateOther_idem r1)
    rw [this]
  rw [hmap]

/-- Witness for C9 at a concrete state with a selected reference. -/
theorem C9_height_computation_idempotent_witness :
    calculate_relative_heights
      (calculate_relative_heights
        ⟨[⟨"1", 0, 0, some 0, some 0, none, none⟩,
          ⟨"2", 10, 0, some 5, none, none, none⟩], some 0⟩ 100).2 100 =
    calculate_relative_heights
      ⟨[⟨"1", 0, 0, some 0, some 0, none, none⟩,
        ⟨"2", 10, 0, some 5, none, none, none⟩], some 0⟩ 100 :=
  C9_height_computation_idempotent
    ⟨[⟨"1", 0, 0, some 0, some 0, none, none⟩,
      ⟨"2", 10, 0, some 5, none, none, none⟩], some 0⟩ 100 0
    ⟨"1", 0, 0, some 0, some 0, none, none⟩ rfl (by decide)

/-! ## C6: reference selection without an identifier is RNG-dependent -/

/-- C6: `set_reference_borehole` without an explicit identifier calls
`random.choice(self.boreholes)`; on the same two-element registry the
selection succeeds but picks the first borehole under one RNG draw and the
second under another, so the choice is not a function of the registry
contents alone and two runs on the same registry can select different
boreholes. -/
theorem C6_random_reference_selection :
    (set_reference_borehole
      ⟨[⟨"1", 0, 0, none, none, none, none⟩,
        ⟨"2", 1, 0, none, none, none, none⟩], none⟩ none 0).1 = true ∧
    (set_reference_borehole
      ⟨[⟨"1", 0, 0, none, none, none, none⟩,
        ⟨"2", 1, 0, none, none, none, none⟩], none⟩ none 1).1 = true ∧
    (set_reference_borehole
      ⟨[⟨"1", 0, 0, none, none, none, none⟩,
        ⟨"2", 1, 0, none, none, none, none⟩], none⟩ none 0).2.reference = some 0 ∧
    (set_reference_borehole
      ⟨[⟨"1", 0, 0, none, none, none, none⟩,
        ⟨"2", 1, 0, none, none, none, none⟩], none⟩ none 1).2.reference = some 1 := by
  decide

/-! ## C8 and C10: failure conditions of selection and height computation -/

/-- A number that no borehole carries is never found by the scan. -/
lemma findNumberIdx_eq_none :
    ∀ (l : List Borehole) (s : String),
      (∀ b ∈ l, b.number ≠ s) → findNumberIdx l s = none
  | [], _, _ => rfl
  | b :: t, s, h => by
    unfold findNumberIdx
    rw [if_neg (h b (List.mem_cons_self b t))]
    rw [findNumberIdx_eq_none t s fun x hx => h x (List.mem_cons_of_mem b hx)]
    rfl

/-- C8 (amended): selection on an empty registry fails (returns `False`,
state unchanged); selection with an explicit *non-empty* identifier absent
from the registry fails (returns `False`, state unchanged); height
computation invoked before a reference has been selected fails (returns
`False`, state unchanged).  Each failure is the explicit `False` return of
the corresponding guard, never a silent default.  (An explicit empty
string is treated by `if borehole_number:` like `None` and triggers the
random-selection branch instead, see the counterexample.) -/
theorem C8_failure_conditions :
    (∀ (p : BoreholeProcessor) (num : Option String) (rand : Nat),
      p.boreholes = [] → set_reference_borehole p num rand = (false, p)) ∧
    (∀ (p : BoreholeProcessor) (s : String) (rand : Nat),
      s ≠ "" → (∀ b ∈ p.boreholes, b.number ≠ s) →
      set_reference_borehole p (some s) rand = (false, p)) ∧
    (∀ (p : BoreholeProcessor) (rz : ℚ),
      p.reference = none → calculate_relative_heights p rz = (false, p)) := by
  refine ⟨?_, ?_, ?_⟩
  · intro p num rand h
    unfold set_reference_borehole
    rw [if_pos h]
  · intro p s rand hs habsent
    unfold set_reference_borehole
    by_cases hemp : p.boreholes = []
    · rw [if_pos hemp]
    · rw [if_neg hemp]
      dsimp only
      rw [if_neg hs, findNumberIdx_eq_none p.boreholes s habsent]
  · intro p rz h
    unfold calculate_relative_heights
    rw [h]

/-- Counterexample for C8 as frozen: the explicit identifier `""` is
absent from the registry, yet selection succeeds (random branch) instead
of failing with a not-found condition. -/
theorem C8_failure_conditions_cex :
    (∀ b ∈ ([⟨"7", 0, 0, none, none, none, none⟩] : List Borehole),
      b.number ≠ "") ∧
    (set_reference_borehole
      ⟨[⟨"7", 0, 0, none, none, none, none⟩], none⟩ (some "") 0).1 = true := by
  decide

/-- Witness for C8 at concrete inputs: all three failure guards fire. -/
theorem C8_failure_conditions_witness :
    set_reference_borehole ⟨[], none⟩ (some "1") 3 = (false, ⟨[], none⟩) ∧
    set_reference_borehole
      ⟨[⟨"7", 0, 0, none, none, none, none⟩], none⟩ (some "9") 5 =
      (false, ⟨[⟨"7", 0, 0, none, none, none, none⟩], none⟩) ∧
    calculate_relative_heights
      ⟨[⟨"7", 0, 0, none, none, none, none⟩], none⟩ 100 =
      (false, ⟨[⟨"7", 0, 0, none, none, none, none⟩], none⟩) :=
  ⟨C8_failure_conditions.1 ⟨[], none⟩ (some "1") 3 rfl,
   C8_failure_conditions.2.1 ⟨[⟨"7", 0, 0, none, none, none, none⟩], none⟩
     "9" 5 (by decide) (by decide),
   C8_failure_conditions.2.2 ⟨[⟨"7", 0, 0, none, none, none, none⟩], none⟩
     100 rfl⟩

/-- C10 (amended): selection with an explicit *non-empty* identifier that
matches no borehole returns failure and leaves the processor state (the
whole borehole list and the current reference) unchanged. -/
theorem C10_failed_selection_atomic :
    ∀ (p : BoreholeProcessor) (s : String) (rand : Nat),
      s ≠ "" → (∀ b ∈ p.boreholes, b.number ≠ s) →
      (set_reference_borehole p (some s) rand).1 = false ∧
      (set_reference_borehole p (some s) rand).2 = p := by
  intro p s rand hs habsent
  have h : set_reference_borehole p (some s) rand = (false, p) := by
    unfold set_reference_borehole
    by_cases hemp : p.boreholes = []
    · rw [if_pos hemp]
    · rw [if_neg hemp]
      dsimp only
      rw [if_neg hs, findNumberIdx_eq_none p.boreholes s habsent]
  rw [h]
  exact ⟨rfl, rfl⟩

/-- Counterexample for C10 as frozen: with identifier `""` (absent from
the registry), the call reports success and mutates the state — the
previously selected reference index `0` is replaced by `1` and that
borehole's `relative_height` is zeroed. -/
theorem C10_failed_selection_atomic_cex :
    (∀ b ∈ ([⟨"1", 0, 0, none, none, none, none⟩,
             ⟨"2", 1, 0, none, none, none, none⟩] : List Borehole),
      b.number ≠ "") ∧
    (set_reference_borehole
      ⟨[⟨"1", 0, 0, none, none, none, none⟩,
        ⟨"2", 1, 0, none, none, none, none⟩], some 0⟩ (some "") 1).1 = true ∧
    (set_reference_borehole
      ⟨[⟨"1", 0, 0, none, none, none, none⟩,
        ⟨"2", 1, 0, none, none, none, none⟩], some 0⟩ (some "") 1).2 ≠
      ⟨[⟨"1", 0, 0, none, none, none, none⟩,
        ⟨"2", 1, 0, none, none, none, none⟩], some 0⟩ := by
  decide

/-- Witness for C10 at a concrete input: identifier "3" is absent, the
call fails and the state (including the current reference) is untouched. -/
theorem C10_failed_selection_atomic_witness :
    (set_reference_borehole
      ⟨[⟨"1", 0, 0, none, none, none, none⟩,
        ⟨"2", 1, 0, none, none, none, none⟩], some 1⟩ (some "3") 7).1 = false ∧
    (set_reference_borehole
      ⟨[⟨"1", 0, 0, none, none, none, none⟩,
        ⟨"2", 1, 0, none, none, none, none⟩], some 1⟩ (some "3") 7).2 =
      ⟨[⟨"1", 0, 0, none, none, none, none⟩,
        ⟨"2", 1, 0, none, none, none, none⟩], some 1⟩ :=
  C10_failed_selection_atomic
    ⟨[⟨"1", 0, 0, none, none, none, none⟩,
      ⟨"2", 1, 0, none, none, none, none⟩], some 1⟩ "3" 7
    (by decide) (by decide)

/-! ## C4: circle/label pairing -/

/-- Invariant of the circle-driven pass: everything appended beyond the
text-pass prefix `init` carries a circle that no earlier borehole (in
`init` or among the appended ones) carries. -/
def FreshCircles (init acc : List Borehole) : Prop :=
  ∃ ext, acc = init ++ ext ∧
    (∀ b ∈ ext, b.circle_entity.isSome) ∧
    List.Pairwise (fun a b => a.circle_entity ≠ b.circle_entity) ext ∧
    (∀ b ∈ ext, ∀ b0 ∈ init, b0.circle_entity ≠ b.circle_entity)

lemma circlePassStep_fresh (texts : List TextEnt) (init acc : List Borehole)
    (c : CircleEnt) (h : FreshCircles init acc) :
    FreshCircles init (circlePassStep texts acc c) := by
  obtain ⟨ext, hacc, hsome, hpw, hdisj⟩ := h
  unfold circlePassStep
  by_cases hany : acc.any (fun bh => bh.circle_entity = some c)
  · rw [if_pos hany]
    exact ⟨ext, hacc, hsome, hpw, hdisj⟩
  · rw [if_neg hany]
    have hnotin : ∀ b ∈ acc, b.circle_entity ≠ some c := by
      intro b hb
      have := (List.any_eq_true.not.mp hany)
      push_neg at this
      have h2 := this b hb
      simpa using h2
    cases hfind : find_nearby_text c.center texts 50 with
    | none => exact ⟨ext, hacc, hsome, hpw, hdisj⟩
    | some t =>
      dsimp only
      cases hex : extract_borehole_number t.text with
      | none => exact ⟨ext, hacc, hsome, hpw, hdisj⟩
      | some n =>
        dsimp only
        refine ⟨ext ++ [{ number := n, x := coord c.center 0, y := coord c.center 1,
                          z := some (zCoord c.center 0),
                          circle_entity := some c, text_entity := some t }],
                by rw [hacc, List.append_assoc], ?_, ?_, ?_⟩
        · intro b hb
          rcases List.mem_append.mp hb with hb | hb
          · exact hsome b hb
          · rcases List.mem_singleton.mp hb with rfl
            rfl
        · rw [List.pairwise_append]
          refine ⟨hpw, List.pairwise_singleton _ _, ?_⟩
          intro a ha b hb
          rcases List.mem_singleton.mp hb with rfl
          have : a ∈ acc := by rw [hacc]; exact List.mem_append_right _ ha
          exact hnotin a this
        · intro b hb b0 hb0
          rcases List.mem_append.mp hb with hb | hb
          · exact hdisj b hb b0 hb0
          · rcases List.mem_singleton.mp hb with rfl
            have : b0 ∈ acc := by rw [hacc]; exact List.mem_append_left _ hb0
            exact hnotin b0 this

lemma circlePass_fresh (texts : List TextEnt) :
    ∀ (circles : List CircleEnt) (init acc : List Borehole),
      FreshCircles init acc →
      FreshCircles init (circles.foldl (circlePassStep texts) acc)
  | [], _, _, h => h
  | c :: circles, init, acc, h =>
    circlePass_fresh texts circles init (circlePassStep texts acc c)
      (circlePassStep_fresh texts init acc c h)

/-- C4 (amended): in a text/marker matching pass, only the circle-driven
second loop avoids reusing circles — every borehole it appends beyond the
text-pass prefix carries a `circle_entity` that is `some` circle, distinct
from the circle of every other appended borehole and from the circle of
every text-pass borehole.  The text-driven first loop selects the nearest
circle independently for each label, so a circle may be shared by several
text-pass boreholes (see the counterexample); there is no 1:1 guarantee
for the pass as a whole. -/
theorem C4_circle_pairing :
    ∀ (texts : List TextEnt) (circles : List CircleEnt),
      ∃ ext, extract_borehole_numbers texts circles = textPass texts circles ++ ext ∧
        (∀ b ∈ ext, b.circle_entity.isSome) ∧
        List.Pairwise (fun a b => a.circle_entity ≠ b.circle_entity) ext ∧
        (∀ b ∈ ext, ∀ b0 ∈ textPass texts circles,
          b0.circle_entity ≠ b.circle_entity) := by
  intro texts circles
  exact circlePass_fresh texts circles (textPass texts circles)
    (textPass texts circles) ⟨[], by simp, by simp, List.Pairwise.nil, by simp⟩

/-- Witness for C4 at a concrete input: the result of the matching pass
extends the text-pass prefix. -/
theorem C4_circle_pairing_witness :
    (extract_borehole_numbers [⟨"скв 1", [0, 0, 0]⟩] [⟨[0, 0, 0], 1⟩]).take
      (textPass [⟨"скв 1", [0, 0, 0]⟩] [⟨[0, 0, 0], 1⟩]).length =
    textPass [⟨"скв 1", [0, 0, 0]⟩] [⟨[0, 0, 0], 1⟩] := by
  obtain ⟨ext, hext, -, -, -⟩ :=
    C4_circle_pairing [⟨"скв 1", [0, 0, 0]⟩] [⟨[0, 0, 0], 1⟩]
  rw [hext]
  exact List.take_left _ _

/-- Counterexample for C4 as frozen: two labels "скв 1" and "скв 2" both
sit on the single circle; the text-driven pass matches the circle to the
first label and then reuses it for the second, so after the pass one
circle entity is associated with two distinct boreholes. -/
theorem C4_circle_pairing_cex :
    (extract_borehole_numbers
      [⟨"скв 1", [0, 0, 0]⟩, ⟨"скв 2", [0, 0, 0]⟩] [⟨[0, 0, 0], 1⟩]).map
      (fun b => (b.number, b.circle_entity)) =
      [("1", some ⟨[0, 0, 0], 1⟩), ("2", some ⟨[0, 0, 0], 1⟩)] := by
  have hfc : find_closest_circle [0, 0, 0] [⟨[0, 0, 0], 1⟩] 50 =
      some ⟨[0, 0, 0], 1⟩ := by
    norm_num +decide [find_closest_circle, nearestStep, withinThr, distSq, coord]
  have e1 : extract_borehole_number (stripPy "скв 1") = some "1" := by decide
  have e2 : extract_borehole_number (stripPy "скв 2") = some "2" := by decide
  have h1 : textPass [⟨"скв 1", [0, 0, 0]⟩, ⟨"скв 2", [0, 0, 0]⟩] [⟨[0, 0, 0], 1⟩] =
      [⟨"1", 0, 0, some 0, none, some ⟨"скв 1", [0, 0, 0]⟩, some ⟨[0, 0, 0], 1⟩⟩,
       ⟨"2", 0, 0, some 0, none, some ⟨"скв 2", [0, 0, 0]⟩, some ⟨[0, 0, 0], 1⟩⟩] := by
    unfold textPass
    simp only [List.foldl, e1, e2, mkTextBorehole, hfc]
    decide
  have h2 : extract_borehole_numbers
      [⟨"скв 1", [0, 0, 0]⟩, ⟨"скв 2", [0, 0, 0]⟩] [⟨[0, 0, 0], 1⟩] =
      textPass [⟨"скв 1", [0, 0, 0]⟩, ⟨"скв 2", [0, 0, 0]⟩] [⟨[0, 0, 0], 1⟩] := by
    unfold extract_borehole_numbers
    rw [h1]
    simp only [List.foldl]
    rw [circlePassStep, if_pos (by decide)]
  rw [h2, h1]
  decide

/-! ## C5: identifier uniqueness -/

/-- C5 (amended): extraction performs no identifier collision resolution.
A block-extraction run yields exactly one borehole per block, in input
order, whose identifier is the first parseable truthy attribute value or
else the 1-based positional fallback; colliding identifiers are kept
verbatim on distinct entries (nothing is dropped, flagged or
re-synthesized), so identifiers are pairwise distinct exactly when that
extracted identifier list is duplicate-free. -/
theorem C5_identifier_uniqueness :
    (∀ blocks : List BlockEnt,
      (extract_borehole_from_blocks blocks).map Borehole.number =
        blocks.enum.map
          (fun ib => (attrNumber ib.2.attributes).getD (toString (ib.1 + 1)))) ∧
    (∀ blocks : List BlockEnt,
      ((extract_borehole_from_blocks blocks).map Borehole.number).Nodup →
      (extract_borehole_from_blocks blocks).Pairwise
        (fun a b => a.number ≠ b.number)) := by
  constructor
  · intro blocks
    unfold extract_borehole_from_blocks
    rw [List.map_map]
    rfl
  · intro blocks h
    exact List.pairwise_map.mp h

/-- Witness for C5 at a concrete input with distinct attribute numbers. -/
theorem C5_identifier_uniqueness_witness :
    (extract_borehole_from_blocks
      [⟨[0, 0, 0], [("N", "1")]⟩, ⟨[1, 0, 0], [("N", "2")]⟩]).Pairwise
      (fun a b => a.number ≠ b.number) :=
  C5_identifier_uniqueness.2
    [⟨[0, 0, 0], [("N", "1")]⟩, ⟨[1, 0, 0], [("N", "2")]⟩] (by decide)

/-- Counterexample for C5 as frozen: two blocks whose attributes both
parse to "5" produce two distinct registry entries with the same
identifier (no flagging, no fallback re-synthesis); the attribute-free
text pass behaves the same way. -/
theorem C5_identifier_uniqueness_cex :
    ((extract_borehole_from_blocks
        [⟨[0, 0, 0], [("N", "скв 5")]⟩, ⟨[10, 0, 0], [("N", "скв 5")]⟩]).map
      Borehole.number = ["5", "5"]) ∧
    ((extract_borehole_from_blocks
        [⟨[0, 0, 0], [("N", "скв 5")]⟩, ⟨[10, 0, 0], [("N", "скв 5")]⟩])[0]? ≠
     (extract_borehole_from_blocks
        [⟨[0, 0, 0], [("N", "скв 5")]⟩, ⟨[10, 0, 0], [("N", "скв 5")]⟩])[1]?) ∧
    ((extract_borehole_numbers
        [⟨"скв 5", [0, 0, 0]⟩, ⟨"скв 5", [10, 0, 0]⟩] []).map
      Borehole.number = ["5", "5"]) := by
  decide

/-! ## C7: the single-reference invariant of the exported data -/

/-- The tuple of `Borehole` fields that reference selection never touches
(all fields except `relative_height`). -/
def bkey (b : Borehole) :
    String × ℚ × ℚ × Option ℚ × Option TextEnt × Option CircleEnt :=
  (b.number, b.x, b.y, b.z, b.text_entity, b.circle_entity)

/-- Zeroing `relative_height` anywhere preserves all keys. -/
lemma setRel0_map_bkey :
    ∀ (l : List Borehole) (i : Nat), (setRel0 l i).map bkey = l.map bkey
  | [], _ => rfl
  | _ :: _, 0 => rfl
  | b :: t, n + 1 => by
    simp only [setRel0, List.map_cons]
    rw [setRel0_map_bkey t n]

/-- The element at the zeroed position. -/
lemma setRel0_getElem? :
    ∀ (l : List Borehole) (i : Nat) (h : i < l.length),
      (setRel0 l i)[i]? =
        some { l.get ⟨i, h⟩ with relative_height := some 0 }
  | b :: t, 0, _ => by simp [setRel0]
  | b :: t, n + 1, h => by
    simp only [setRel0, List.getElem?_cons_succ, List.get]
    exact setRel0_getElem? t n (Nat.lt_of_succ_lt_succ h)

/-- A found index is in range. -/
lemma findNumberIdx_lt :
    ∀ (l : List Borehole) (s : String) (i : Nat),
      findNumberIdx l s = some i → i < l.length
  | [], s, i, h => by simp [findNumberIdx] at h
  | b :: t, s, i, h => by
    unfold findNumberIdx at h
    by_cases hb : b.number = s
    · rw [if_pos hb] at h
      cases h
      simp
    · rw [if_neg hb] at h
      cases hfind : findNumberIdx t s with
      | none => rw [hfind] at h; simp at h
      | some j =>
        rw [hfind] at h
        simp only [Option.map_some', Option.some.injEq] at h
        subst h
        exact Nat.succ_lt_succ (findNumberIdx_lt t s j hfind)

/-- Every successful selection marks some in-range index. -/
lemma set_reference_success (p : BoreholeProcessor) (num : Option String)
    (rand : Nat) (h : (set_reference_borehole p num rand).1 = true) :
    ∃ i, i < p.boreholes.length ∧
      (set_reference_borehole p num rand).2 = markReference p i := by
  unfold set_reference_borehole at h ⊢
  by_cases hemp : p.boreholes = []
  · rw [if_pos hemp] at h
    exact absurd h (by simp)
  · rw [if_neg hemp] at h ⊢
    have hlen : 0 < p.boreholes.length := List.length_pos.mpr hemp
    cases num with
    | none =>
      exact ⟨rand % p.boreholes.length, Nat.mod_lt _ hlen, rfl⟩
    | some s =>
      dsimp only at h ⊢
      by_cases hs : s = ""
      · rw [if_pos hs] at h ⊢
        exact ⟨rand % p.boreholes.length, Nat.mod_lt _ hlen, rfl⟩
      · rw [if_neg hs] at h ⊢
        cases hfind : findNumberIdx p.boreholes s with
        | none =>
          rw [hfind] at h
          simp at h
        | some i =>
          exact ⟨i, findNumberIdx_lt _ _ _ hfind, rfl⟩

/-- With pairwise-distinct keys, exactly one element of the marked list
equals the marked element. -/
lemma setRel0_countP_marked :
    ∀ (l : List Borehole) (i : Nat) (h : i < l.length),
      l.Pairwise (fun a b => bkey a ≠ bkey b) →
      (setRel0 l i).countP
        (fun b => decide (b = { l.get ⟨i, h⟩ with relative_height := some 0 })) = 1
  | b :: t, 0, h, hpw => by
    simp only [setRel0, List.countP_cons, List.get]
    have hzero : t.countP
        (fun x => decide (x = { b with relative_height := some 0 })) = 0 := by
      rw [List.countP_eq_zero]
      intro x hx
      simp only [decide_eq_true_eq]
      intro hxe
      have : bkey b ≠ bkey x := (List.pairwise_cons.mp hpw).1 x hx
      exact this (by rw [hxe]; rfl)
    rw [hzero]
    simp
  | b :: t, n + 1, h, hpw => by
    have hn : n < t.length := Nat.lt_of_succ_lt_succ h
    simp only [setRel0, List.countP_cons, List.get]
    have hhead : (decide (b = { t.get ⟨n, hn⟩ with relative_height := some 0 })) = false := by
      simp only [decide_eq_false_iff_not]
      intro hbe
      have hmem : t.get ⟨n, hn⟩ ∈ t := List.get_mem t n hn
      have : bkey b ≠ bkey (t.get ⟨n, hn⟩) := (List.pairwise_cons.mp hpw).1 _ hmem
      exact this (by rw [hbe]; rfl)
    rw [hhead]
    simp only [if_false, Bool.false_eq_true, add_zero]
    exact setRel0_countP_marked t n hn (List.pairwise_cons.mp hpw).2

/-- C7 (amended): after any successful reference selection on a registry
whose boreholes have pairwise-distinct keys (all fields except
`relative_height`; dataclass equality drives `is_reference`), exactly one
exported row has `is_reference = true`, every flagged row has
`relative_height = 0`, and keys are preserved — so a second successful
selection again yields exactly one flag (the previous one is cleared).
Registries containing duplicate-valued boreholes can violate the
invariant (see the counterexample). -/
theorem C7_single_reference :
    ∀ (p : BoreholeProcessor) (num : Option String) (rand : Nat),
      p.boreholes.Pairwise (fun a b => bkey a ≠ bkey b) →
      (set_reference_borehole p num rand).1 = true →
      ((get_boreholes_data (set_reference_borehole p num rand).2).countP
        (fun r => r.is_reference) = 1 ∧
      (∀ row ∈ get_boreholes_data (set_reference_borehole p num rand).2,
        row.is_reference = true → row.relative_height = some 0) ∧
      (set_reference_borehole p num rand).2.boreholes.map bkey =
        p.boreholes.map bkey) := by
  intro p num rand hpw hsucc
  obtain ⟨i, hi, hstate⟩ := set_reference_success p num rand hsucc
  rw [hstate]
  have hget := setRel0_getElem? p.boreholes i hi
  have hdata : get_boreholes_data (markReference p i) =
      (setRel0 p.boreholes i).map
        (rowOf (some { p.boreholes.get ⟨i, hi⟩ with relative_height := some 0 })) := by
    unfold get_boreholes_data markReference
    dsimp only
    rw [show (Option.bind (some i) fun j => (setRel0 p.boreholes i)[j]?) =
        (setRel0 p.boreholes i)[i]? from rfl, hget]
  refine ⟨?_, ?_, setRel0_map_bkey p.boreholes i⟩
  · rw [hdata, List.countP_map]
    exact setRel0_countP_marked p.boreholes i hi hpw
  · rw [hdata]
    intro row hrow hisref
    obtain ⟨a, ha, rfl⟩ := List.mem_map.mp hrow
    have : a = { p.boreholes.get ⟨i, hi⟩ with relative_height := some 0 } := by
      have := hisref
      unfold rowOf at this
      simpa using this
    rw [this]
    rfl

/-- Witness for C7 at a concrete registry with distinct keys. -/
theorem C7_single_reference_witness :
    (get_boreholes_data
      (set_reference_borehole
        ⟨[⟨"1", 0, 0, none, none, none, none⟩,
          ⟨"2", 1, 0, none, none, none, none⟩], none⟩ (some "2") 0).2).countP
      (fun r => r.is_reference) = 1 := by
  have hpw : List.Pairwise (fun a b => bkey a ≠ bkey b)
      ([⟨"1", 0, 0, none, none, none, none⟩,
        ⟨"2", 1, 0, none, none, none, none⟩] : List Borehole) := by
    refine List.Pairwise.cons ?_ (List.pairwise_singleton _ _)
    intro x hx
    rcases List.mem_singleton.mp hx with rfl
    intro h
    simp [bkey] at h
  exact (C7_single_reference
    ⟨[⟨"1", 0, 0, none, none, none, none⟩,
      ⟨"2", 1, 0, none, none, none, none⟩], none⟩ (some "2") 0
    hpw (by decide)).1

/-- Counterexample for C7 as frozen: two identical attributed insertions
produce two equal-valued boreholes numbered "5"; after selecting "5" and
running the height pass, dataclass equality makes both exported rows
compare equal to the reference, so two rows carry `is_reference = true`. -/
theorem C7_single_reference_cex :
    (set_reference_borehole
      ⟨extract_borehole_from_blocks
        [⟨[0, 0, 0], [("N", "5")]⟩, ⟨[0, 0, 0], [("N", "5")]⟩], none⟩
      (some "5") 0).1 = true ∧
    (calculate_relative_heights
      (set_reference_borehole
        ⟨extract_borehole_from_blocks
          [⟨[0, 0, 0], [("N", "5")]⟩, ⟨[0, 0, 0], [("N", "5")]⟩], none⟩
        (some "5") 0).2 0).1 = true ∧
    (get_boreholes_data
      (calculate_relative_heights
        (set_reference_borehole
          ⟨extract_borehole_from_blocks
            [⟨[0, 0, 0], [("N", "5")]⟩, ⟨[0, 0, 0], [("N", "5")]⟩], none⟩
          (some "5") 0).2 0).2).countP
      (fun r => r.is_reference) = 2 := by
  have e1 : extract_borehole_from_blocks
      [⟨[0, 0, 0], [("N", "5")]⟩, ⟨[0, 0, 0], [("N", "5")]⟩] =
      [⟨"5", 0, 0, some 0, none, none, none⟩,
       ⟨"5", 0, 0, some 0, none, none, none⟩] := by decide
  have e2 : set_reference_borehole
      ⟨[⟨"5", 0, 0, some 0, none, none, none⟩,
        ⟨"5", 0, 0, some 0, none, none, none⟩], none⟩ (some "5") 0 =
      (true, ⟨[⟨"5", 0, 0, some 0, some 0, none, none⟩,
               ⟨"5", 0, 0, some 0, none, none, none⟩], some 0⟩) := by decide
  have e3 : calculate_relative_heights
      ⟨[⟨"5", 0, 0, some 0, some 0, none, none⟩,
        ⟨"5", 0, 0, some 0, none, none, none⟩], some 0⟩ 0 =
      (true, ⟨[⟨"5", 0, 0, some 0, some 0, none, none⟩,
               ⟨"5", 0, 0, some 0, some 0, none, none⟩], some 0⟩) := by
    norm_num +decide [calculate_relative_heights, applyOverride, updateOther]
  rw [e1, e2]
  dsimp only
  rw [e3]
  dsimp only
  refine ⟨rfl, rfl, ?_⟩
  decide
